import Mathlib

/-!
Verification of the TIFF Photoshop-layer reader (`src/lib/tiff-layer-reader.ts`).

The parser is shallowly embedded: a Node `Buffer` is a `List Nat` of bytes,
big-endian reads are explicit arithmetic, every JS bounds check is mirrored
by the corresponding `if`, and the JS `while` loops become fuel-based
structural recursion (the fuel supplied at each call site is strictly larger
than the number of iterations the loop can perform, since each iteration
advances the cursor by a positive amount).

Node specifics that are modelled faithfully:
* `buffer.toString('ascii', a, b)` masks every byte with `0x7F`;
* `buffer[i]` is `undefined` when `i ≥ length`; in `parse8BIMResources`
  this happens exactly when `offset + 6 = length`, which makes the
  subsequent `readUInt32BE` offset `NaN` and raises `ERR_OUT_OF_RANGE`
  (modelled as the `.fail` step / an `Except.error`);
* `buffer.toString('utf16le', a, b)` pairs bytes low-first into 16-bit
  code units.
-/

namespace Nebula

/-- Byte read `buffer[i]`, with the Buffer invariant that entries are bytes. -/
def byteAt (buf : List Nat) (i : Nat) : Nat := (buf.getD i 0) % 256

/-- Node `buffer.readUInt16BE`. -/
def readUInt16BE (buf : List Nat) (off : Nat) : Nat :=
  byteAt buf off * 256 + byteAt buf (off + 1)

/-- Node `buffer.readUInt32BE`. -/
def readUInt32BE (buf : List Nat) (off : Nat) : Nat :=
  ((byteAt buf off * 256 + byteAt buf (off + 1)) * 256 + byteAt buf (off + 2)) * 256
    + byteAt buf (off + 3)

/-- Node `buffer.readInt16BE` (two's complement). -/
def readInt16BE (buf : List Nat) (off : Nat) : Int :=
  if readUInt16BE buf off < 32768 then (readUInt16BE buf off : Int)
  else (readUInt16BE buf off : Int) - 65536

/-- Node `buffer.readInt32BE` (two's complement). -/
def readInt32BE (buf : List Nat) (off : Nat) : Int :=
  if readUInt32BE buf off < 2147483648 then (readUInt32BE buf off : Int)
  else (readUInt32BE buf off : Int) - 4294967296

/-- `buffer.slice(start, stop)` as raw bytes. -/
def sliceBytes (buf : List Nat) (start stop : Nat) : List Nat :=
  (buf.drop start).take (stop - start)

/-- `buffer.toString('ascii', start, stop)`: Node's ascii decoder strips the
high bit of every byte. The resulting string is kept as its code list. -/
def asciiSlice (buf : List Nat) (start stop : Nat) : List Nat :=
  (sliceBytes buf start stop).map (· % 128)

/-- Codes of the string "8BIM". -/
def sig8BIM : List Nat := [56, 66, 73, 77]

/-- Codes of the string "luni". -/
def keyLuni : List Nat := [108, 117, 110, 105]

/-- Codes of the string "lnam". -/
def keyLnam : List Nat := [108, 110, 97, 109]

/-- Codes of the string "norm". -/
def normCode : List Nat := [110, 111, 114, 109]

/-- `buffer.toString('utf16le', ...)`: bytes paired low-first into 16-bit
code units (a trailing odd byte is dropped, as Node does). -/
def utf16leUnits : List Nat → List Nat
  | b0 :: b1 :: rest => (b0 % 256 + 256 * (b1 % 256)) :: utf16leUnits rest
  | _ => []

/-- An 8BIM image resource as produced by `parse8BIMResources`. -/
structure Resource where
  id : Nat
  name : List Nat
  data : List Nat
  dataSize : Nat
deriving Repr, DecidableEq

/-- Line 63 of the source: `(nameLength + 1) % 2 === 1 ? nameLength + 1 :
nameLength + 2` — the padded count of bytes after the length byte. -/
def paddedNameLength (nameLength : Nat) : Nat :=
  if (nameLength + 1) % 2 = 1 then nameLength + 1 else nameLength + 2

/-- Outcome of one iteration of the `while` loop in `parse8BIMResources`:
either a `break` (graceful stop), a thrown `ERR_OUT_OF_RANGE`
(`buffer[offset+6]` was `undefined`, so the size offset became `NaN`), or an
emitted resource together with the next cursor position. -/
inductive WalkStep where
  | stop
  | fail
  | emit (r : Resource) (next : Nat)
deriving Repr, DecidableEq

/-- One iteration of the resource-walk loop (lines 44-90 of the source),
assuming the loop guard `offset < buffer.length` already held. -/
def walkStep (buf : List Nat) (off : Nat) : WalkStep :=
  if buf.length < off + 4 then .stop
  else if asciiSlice buf off (off + 4) ≠ sig8BIM then .stop
  else if buf.length < off + 6 then .stop
  else if buf.length ≤ off + 6 then .fail
  else
    let resourceId := readUInt16BE buf (off + 4)
    let nameLength := byteAt buf (off + 6)
    let name :=
      if 0 < nameLength ∧ off + 7 + nameLength ≤ buf.length then
        asciiSlice buf (off + 7) (off + 7 + nameLength)
      else []
    let sizeOffset := off + 7 + paddedNameLength nameLength
    if buf.length < sizeOffset + 4 then .stop
    else
      let dataSize := readUInt32BE buf sizeOffset
      if buf.length < sizeOffset + 4 + dataSize then .stop
      else
        .emit ⟨resourceId, name, sliceBytes buf (sizeOffset + 4) (sizeOffset + 4 + dataSize),
               dataSize⟩
          (sizeOffset + 4 + dataSize + dataSize % 2)

/-- The resource-walk loop, fuelled. The fuel given by `parse8BIMResources`
can never run out because each emitted step advances the cursor by at least
12 bytes. -/
def walkLoop (buf : List Nat) : Nat → Nat → Except String (List Resource)
  | 0, _ => .ok []
  | fuel + 1, off =>
    if off < buf.length then
      match walkStep buf off with
      | .stop => .ok []
      | .fail => .error "offset out of range"
      | .emit r next =>
        match walkLoop buf fuel next with
        | .ok rs => .ok (r :: rs)
        | .error e => .error e
    else .ok []

/-- `parse8BIMResources` (lines 38-94 of the source). -/
def parse8BIMResources (buf : List Nat) : Except String (List Resource) :=
  walkLoop buf (buf.length + 1) 0

end Nebula

namespace Nebula

theorem walkStep_emit_iff {buf : List Nat} {off : Nat} {r : Resource} {next : Nat}
    (h : walkStep buf off = .emit r next) :
    ¬ buf.length < off + 7 + paddedNameLength (byteAt buf (off + 6)) + 4 ∧
    r.dataSize = readUInt32BE buf (off + 7 + paddedNameLength (byteAt buf (off + 6))) ∧
    r.data = sliceBytes buf (off + 7 + paddedNameLength (byteAt buf (off + 6)) + 4)
      (off + 7 + paddedNameLength (byteAt buf (off + 6)) + 4 + r.dataSize) ∧
    off + 7 + paddedNameLength (byteAt buf (off + 6)) + 4 + r.dataSize ≤ buf.length ∧
    next = off + 7 + paddedNameLength (byteAt buf (off + 6)) + 4 + r.dataSize
      + r.dataSize % 2 := by
  simp only [walkStep] at h
  by_cases h1 : buf.length < off + 4
  · rw [if_pos h1] at h; cases h
  rw [if_neg h1] at h
  by_cases h2 : asciiSlice buf off (off + 4) ≠ sig8BIM
  · rw [if_pos h2] at h; cases h
  rw [if_neg h2] at h
  by_cases h3 : buf.length < off + 6
  · rw [if_pos h3] at h; cases h
  rw [if_neg h3] at h
  by_cases h4 : buf.length ≤ off + 6
  · rw [if_pos h4] at h; cases h
  rw [if_neg h4] at h
  by_cases h5 : buf.length < off + 7 + paddedNameLength (byteAt buf (off + 6)) + 4
  · rw [if_pos h5] at h; cases h
  rw [if_neg h5] at h
  by_cases h6 : buf.length < off + 7 + paddedNameLength (byteAt buf (off + 6)) + 4
      + readUInt32BE buf (off + 7 + paddedNameLength (byteAt buf (off + 6)))
  · rw [if_pos h6] at h; cases h
  rw [if_neg h6] at h
  simp only [WalkStep.emit.injEq] at h
  obtain ⟨hr, hnext⟩ := h
  subst hr
  subst hnext
  dsimp only
  refine ⟨h5, rfl, rfl, by omega, by omega⟩

theorem paddedNameLength_odd (n : Nat) : paddedNameLength n % 2 = 1 := by
  unfold paddedNameLength
  split <;> omega

/-- A layer name as produced by `parseLayerAndMaskInfo`: the synthesized
default `"Layer {i+1}"` (recorded by its number), a Unicode name decoded
from a `luni` sub-block (as UTF-16 code units), or a Pascal-string name
decoded from an `lnam` sub-block (as ASCII codes). -/
inductive LayerName where
  | default (n : Nat)
  | unicode (units : List Nat)
  | pascal (chars : List Nat)
deriving Repr, DecidableEq

/-- A parsed layer record (the `Layer` object of the source). -/
structure Layer where
  name : LayerName
  top : Int
  left : Int
  bottom : Int
  right : Int
  width : Int
  height : Int
  blendMode : List Nat
  opacity : Nat
  flags : Nat
  visible : Bool
  channelCount : Nat
  channels : List (Nat × Nat)
deriving Repr, DecidableEq

/-- The channel-info skip loop (lines 168-172): each channel entry consumes
6 bytes; the loop breaks as soon as fewer than 6 bytes remain. -/
def skipChannels (len : Nat) : Nat → Nat → Nat
  | off, 0 => off
  | off, c + 1 => if len < off + 6 then off else skipChannels len (off + 6) c

/-- The layer-name search over the extra-data trailer (lines 201-241),
fuelled; each iteration advances `loc` by at least 12 so the fuel supplied
by `parseOneLayer` cannot run out. -/
def findName (buf : List Nat) (xEnd : Nat) (dflt : LayerName) : Nat → Nat → LayerName
  | 0, _ => dflt
  | fuel + 1, loc =>
    if loc + 12 < xEnd then
      if buf.length < loc + 12 then dflt
      else if asciiSlice buf loc (loc + 4) ≠ sig8BIM then dflt
      else
        if asciiSlice buf (loc + 4) (loc + 8) = keyLuni ∧ loc + 16 ≤ buf.length then
          if loc + 16 + readUInt32BE buf (loc + 12) * 2 ≤ buf.length then
            .unicode (utf16leUnits
              (sliceBytes buf (loc + 16) (loc + 16 + readUInt32BE buf (loc + 12) * 2)))
          else
            findName buf xEnd dflt fuel
              (loc + 12 + (readUInt32BE buf (loc + 8) + readUInt32BE buf (loc + 8) % 2))
        else if asciiSlice buf (loc + 4) (loc + 8) = keyLnam ∧ loc + 12 < buf.length then
          if loc + 13 + byteAt buf (loc + 12) ≤ buf.length then
            .pascal (asciiSlice buf (loc + 13) (loc + 13 + byteAt buf (loc + 12)))
          else
            findName buf xEnd dflt fuel
              (loc + 12 + (readUInt32BE buf (loc + 8) + readUInt32BE buf (loc + 8) % 2))
        else
          findName buf xEnd dflt fuel
            (loc + 12 + (readUInt32BE buf (loc + 8) + readUInt32BE buf (loc + 8) % 2))
    else dflt

/-- One iteration of the per-layer record loop (lines 144-263): `none`
models a `break` discarding the partial record, `some (layer, next)` a
completed record together with the cursor after its extra-data trailer.
`i` is the 0-based layer index (used for the default name `"Layer {i+1}"`). -/
def parseOneLayer (buf : List Nat) (off : Nat) (i : Nat) : Option (Layer × Nat) :=
  if buf.length < off + 16 then none
  else if buf.length < off + 16 + 2 then none
  else
    let channelCount := readUInt16BE buf (off + 16)
    let off2 := skipChannels buf.length (off + 18) channelCount
    if buf.length < off2 + 12 then none
    else if buf.length < off2 + 12 + 4 then none
    else
      let extraDataEnd := off2 + 12 + 4 + readUInt32BE buf (off2 + 12)
      some
        ({ name := findName buf extraDataEnd (.default (i + 1)) (extraDataEnd + 1)
             (off2 + 12 + 4),
           top := readInt32BE buf off,
           left := readInt32BE buf (off + 4),
           bottom := readInt32BE buf (off + 8),
           right := readInt32BE buf (off + 12),
           width := readInt32BE buf (off + 12) - readInt32BE buf (off + 4),
           height := readInt32BE buf (off + 8) - readInt32BE buf off,
           blendMode := asciiSlice buf (off2 + 4) (off2 + 8),
           opacity := byteAt buf (off2 + 8),
           flags := byteAt buf (off2 + 10),
           visible := byteAt buf (off2 + 10) / 2 % 2 == 0,
           channelCount := channelCount,
           channels := [] }, extraDataEnd)

/-- The record loop of `parseLayerAndMaskInfo`: parse up to `n` records
starting at `off` with layer index `i`; a `break` keeps the records already
completed. -/
def parseLayers (buf : List Nat) : Nat → Nat → Nat → List Layer
  | _, _, 0 => []
  | off, i, n + 1 =>
    match parseOneLayer buf off i with
    | none => []
    | some (layer, next) => layer :: parseLayers buf next (i + 1) n

/-- `parseLayerAndMaskInfo` (lines 107-266): header checks, the signed
16-bit layer count, then `abs(layerCount)` record iterations. -/
def parseLayerAndMaskInfo (buf : List Nat) : Except String (List Layer) :=
  if buf.length < 8 then .error "Buffer too small for layer info"
  else if readUInt32BE buf 4 = 0 then .ok []
  else if buf.length < 10 then .error "Buffer too small for layer count"
  else .ok (parseLayers buf 10 0 (readInt16BE buf 8).natAbs)

/-- A TIFF tag value as seen through UTIF: absent, a scalar number, or an
array of numbers. -/
inductive TagValue where
  | undef
  | scalar (n : Nat)
  | array (vs : List Nat)
deriving Repr, DecidableEq

/-- The fields of a decoded IFD that `readLayersFromTiff` consumes. UTIF is
the external TIFF decoder; its output is the input of this model. -/
structure IFD where
  width : Option Nat
  height : Option Nat
  t34377 : Option (List Nat)
  t277 : TagValue
  t258 : TagValue
deriving Repr, DecidableEq

/-- An entry of the `resources` manifest of the result. -/
structure ResourceInfo where
  id : Nat
  name : List Nat
  size : Nat
deriving Repr, DecidableEq

/-- The result record of `readLayersFromTiff`. `channels` and
`bitsPerChannel` are `Option` because `t[0]` of an empty JS array is
`undefined`. -/
structure TiffLayerData where
  width : Nat
  height : Nat
  channels : Option Nat
  bitsPerChannel : Option Nat
  colorMode : List Nat
  layers : List Layer
  hasTransparency : Bool
  totalLayers : Nat
  resources : List ResourceInfo
deriving Repr, DecidableEq

/-- `Array.isArray(v) ? v[0] : d`. -/
def tagFirstOr (t : TagValue) (d : Nat) : Option Nat :=
  match t with
  | .array vs => vs.head?
  | _ => some d

/-- The result object built at each return site of `readLayersFromTiff`
(lines 407-417, 442-452, 469-479, 492-502 — all four are identical). -/
def mkTiffLayerData (ifd : IFD) (ls : List Layer) (rs : List Resource) : TiffLayerData :=
  { width := ifd.width.getD 0
    height := ifd.height.getD 0
    channels := tagFirstOr ifd.t277 3
    bitsPerChannel := tagFirstOr ifd.t258 8
    colorMode := [82, 71, 66]
    layers := ls
    hasTransparency := ls.any (fun l => !(l.blendMode == normCode))
    totalLayers := ls.length
    resources := rs.map (fun r => ⟨r.id, r.name, r.dataSize⟩) }

/-- The fixed skip offsets of the resource-1036 retry (line 429). -/
def skipSizes : List Nat := [0, 4, 8, 12, 16, 28]

/-- The fallback resource IDs, in priority order (line 349). -/
def altIds : List Nat := [1036, 1050, 1083, 1082]

/-- The skip-offset retry loop for resource 1036 (lines 430-458): try each
skip whose guard `skip < data.length - 8` holds, accepting the first parse
that returns a non-empty layer list; thrown errors are swallowed. -/
def trySkips (data : List Nat) : List Nat → Option (List Layer)
  | [] => none
  | sk :: rest =>
    if sk + 8 < data.length then
      match parseLayerAndMaskInfo (data.drop sk) with
      | .ok ls => if 0 < ls.length then some ls else trySkips data rest
      | .error _ => trySkips data rest
    else trySkips data rest

/-- The fallback candidate loop (lines 351-463): for each alternative ID in
order, find the resource; if its `dataSize > 100`, attempt the direct parse;
a non-empty result is accepted; a thrown error triggers the skip retry when
the ID is 1036; anything else moves to the next candidate. -/
def tryCandidates (ifd : IFD) (rs : List Resource) : List Nat → Option TiffLayerData
  | [] => none
  | rid :: rest =>
    match rs.find? (fun r => r.id == rid) with
    | some r =>
      if 100 < r.dataSize then
        match parseLayerAndMaskInfo r.data with
        | .ok ls =>
          if 0 < ls.length then some (mkTiffLayerData ifd ls rs)
          else tryCandidates ifd rs rest
        | .error _ =>
          if rid == 1036 then
            match trySkips r.data skipSizes with
            | some ls => some (mkTiffLayerData ifd ls rs)
            | none => tryCandidates ifd rs rest
          else tryCandidates ifd rs rest
      else tryCandidates ifd rs rest
    | none => tryCandidates ifd rs rest

/-- `readLayersFromTiff` (lines 300-507) over already-decoded IFDs (UTIF,
the TIFF container decoder, is the external collaborator; the file-path
branch only adds a file read). -/
def readLayersFromTiff (ifds : List IFD) : Except String TiffLayerData :=
  match ifds with
  | [] => .error "No Photoshop tag (34377) found in TIFF"
  | ifd :: _ =>
    match ifd.t34377 with
    | none => .error "No Photoshop tag (34377) found in TIFF"
    | some block =>
      match parse8BIMResources block with
      | .error e => .error e
      | .ok rs =>
        match rs.find? (fun r => r.id == 1058) with
        | some layerRes =>
          match parseLayerAndMaskInfo layerRes.data with
          | .ok ls => .ok (mkTiffLayerData ifd ls rs)
          | .error e => .error e
        | none =>
          match tryCandidates ifd rs altIds with
          | some d => .ok d
          | none => .ok (mkTiffLayerData ifd [] rs)

/-- The candidate loop with the (unreachable) skip-retry branch removed:
used to state the amended form of the fallback claim. -/
def tryCandidatesNoRetry (ifd : IFD) (rs : List Resource) : List Nat → Option TiffLayerData
  | [] => none
  | rid :: rest =>
    match rs.find? (fun r => r.id == rid) with
    | some r =>
      if 100 < r.dataSize then
        match parseLayerAndMaskInfo r.data with
        | .ok ls =>
          if 0 < ls.length then some (mkTiffLayerData ifd ls rs)
          else tryCandidatesNoRetry ifd rs rest
        | .error _ => tryCandidatesNoRetry ifd rs rest
      else tryCandidatesNoRetry ifd rs rest
    | none => tryCandidatesNoRetry ifd rs rest

/-- `readLayersFromTiff` with the skip-retry branch removed. -/
def readLayersFromTiffNoRetry (ifds : List IFD) : Except String TiffLayerData :=
  match ifds with
  | [] => .error "No Photoshop tag (34377) found in TIFF"
  | ifd :: _ =>
    match ifd.t34377 with
    | none => .error "No Photoshop tag (34377) found in TIFF"
    | some block =>
      match parse8BIMResources block with
      | .error e => .error e
      | .ok rs =>
        match rs.find? (fun r => r.id == 1058) with
        | some layerRes =>
          match parseLayerAndMaskInfo layerRes.data with
          | .ok ls => .ok (mkTiffLayerData ifd ls rs)
          | .error e => .error e
        | none =>
          match tryCandidatesNoRetry ifd rs altIds with
          | some d => .ok d
          | none => .ok (mkTiffLayerData ifd [] rs)

/-- `true` when a parse attempt is not accepted by the fallback: it either
threw or returned an empty layer list. -/
def yieldsNoLayers (buf : List Nat) : Bool :=
  match parseLayerAndMaskInfo buf with
  | .ok ls => ls.isEmpty
  | .error _ => true

/-- "The buffer contains enough bytes for `n` full records": every one of
the `n` record iterations starting at `off` completes. -/
def recordsFit (buf : List Nat) : Nat → Nat → Nat → Prop
  | _, _, 0 => True
  | off, i, n + 1 =>
    ∃ l next, parseOneLayer buf off i = some (l, next) ∧ recordsFit buf next (i + 1) n

/-- A minimal complete 34-byte layer record: zero bounds, zero channels,
blend signature "8BIM", blend mode "norm", opacity 255, flags 0, no extra
data. -/
def recordBytes : List Nat :=
  List.replicate 16 0 ++ [0, 0] ++ [56, 66, 73, 77] ++ [110, 111, 114, 109]
    ++ [255, 0, 0, 0] ++ [0, 0, 0, 0]

/-- A layer-and-mask-info buffer declaring `layerCount = 3` but holding
bytes for only 2 full records. -/
def c2buf : List Nat := [0, 0, 0, 0, 0, 0, 0, 1, 0, 3] ++ recordBytes ++ recordBytes

/-- Same two records but with raw count bytes `0xFFFF`, the signed value
-1, whose absolute value 1 limits the parse to a single record. -/
def c2negbuf : List Nat := [0, 0, 0, 0, 0, 0, 0, 1, 255, 255] ++ recordBytes ++ recordBytes

/-- The record parsed from `recordBytes` at layer index 0. -/
def c2layerA : Layer :=
  { name := .default 1, top := 0, left := 0, bottom := 0, right := 0, width := 0, height := 0,
    blendMode := normCode, opacity := 255, flags := 0, visible := true,
    channelCount := 0, channels := [] }

/-- The record parsed from `recordBytes` at layer index 1. -/
def c2layerB : Layer := { c2layerA with name := .default 2 }

end Nebula

namespace Nebula

theorem sliceBytes_length {buf : List Nat} {ds n : Nat} (h : ds + n ≤ buf.length) :
    (sliceBytes buf ds (ds + n)).length = n := by
  simp only [sliceBytes, List.length_take, List.length_drop]
  omega

theorem walkLoop_mem {buf : List Nat} : ∀ fuel off rs, walkLoop buf fuel off = .ok rs →
    ∀ r ∈ rs, ∃ ds, ds + r.dataSize ≤ buf.length ∧ r.data.length = r.dataSize ∧
      r.data = sliceBytes buf ds (ds + r.dataSize) := by
  intro fuel
  induction fuel with
  | zero =>
    intro off rs h r hr
    simp only [walkLoop, Except.ok.injEq] at h
    subst h
    simp at hr
  | succ n ih =>
    intro off rs h r hr
    simp only [walkLoop] at h
    by_cases hlt : off < buf.length
    · rw [if_pos hlt] at h
      rcases hstep : walkStep buf off with _ | _ | ⟨r', next⟩
      · rw [hstep] at h
        replace h : ([] : List Resource) = rs := by simpa using h
        subst h
        cases hr
      · rw [hstep] at h
        simp at h
      · rw [hstep] at h
        dsimp only at h
        rcases hrec : walkLoop buf n next with e | rs'
        · rw [hrec] at h
          simp at h
        · rw [hrec] at h
          dsimp only at h
          replace h : r' :: rs' = rs := by simpa using h
          subst h
          rcases List.mem_cons.mp hr with hr' | hr'
        -- the head comes from the emit characterization, the tail from the IH
          · subst hr'
            obtain ⟨_, _, hdata, hle, _⟩ := walkStep_emit_iff hstep
            refine ⟨off + 7 + paddedNameLength (byteAt buf (off + 6)) + 4, hle, ?_, hdata⟩
            rw [hdata]
            exact sliceBytes_length hle
          · exact ih next rs' hrec r hr'
    · rw [if_neg hlt] at h
      simp only [Except.ok.injEq] at h
      subst h
      simp at hr

theorem walkStep_stop_of_overrun {buf : List Nat} {off : Nat}
    (h1 : off + 6 < buf.length)
    (h2 : asciiSlice buf off (off + 4) = sig8BIM)
    (h3 : off + 7 + paddedNameLength (byteAt buf (off + 6)) + 4 ≤ buf.length)
    (h4 : buf.length < off + 7 + paddedNameLength (byteAt buf (off + 6)) + 4
      + readUInt32BE buf (off + 7 + paddedNameLength (byteAt buf (off + 6)))) :
    walkStep buf off = .stop := by
  have g1 : ¬ buf.length < off + 4 := by omega
  have g3 : ¬ buf.length < off + 6 := by omega
  have g4 : ¬ buf.length ≤ off + 6 := by omega
  have g5 : ¬ buf.length < off + 7 + paddedNameLength (byteAt buf (off + 6)) + 4 := by omega
  simp only [walkStep, if_neg g1, h2, ne_eq, not_true_eq_false, if_false, if_neg g3,
    if_neg g4, if_neg g5, if_pos h4]

theorem walkLoop_stop_of_overrun {buf : List Nat} {off : Nat} (fuel : Nat)
    (h1 : off + 6 < buf.length)
    (h2 : asciiSlice buf off (off + 4) = sig8BIM)
    (h3 : off + 7 + paddedNameLength (byteAt buf (off + 6)) + 4 ≤ buf.length)
    (h4 : buf.length < off + 7 + paddedNameLength (byteAt buf (off + 6)) + 4
      + readUInt32BE buf (off + 7 + paddedNameLength (byteAt buf (off + 6)))) :
    walkLoop buf (fuel + 1) off = .ok [] := by
  have hlt : off < buf.length := by omega
  simp only [walkLoop, if_pos hlt, walkStep_stop_of_overrun h1 h2 h3 h4]

/-- Claim C1: the 8BIM resource walker never emits a resource whose data
window extends past the buffer: every emitted resource's `data` is an
in-bounds slice of the input; and when a declared `dataSize` would overrun
the buffer end, the loop stops at that resource with a `break` (not a
throw), so the resources emitted earlier are returned unchanged. -/
theorem walker_never_overruns :
    (∀ (buf : List Nat) (off : Nat) (r : Resource) (next : Nat),
      walkStep buf off = .emit r next →
        ∃ ds, r.data = sliceBytes buf ds (ds + r.dataSize) ∧ ds + r.dataSize ≤ buf.length) ∧
    (∀ (buf : List Nat) (fuel off : Nat) (rs : List Resource),
      walkLoop buf fuel off = .ok rs →
        ∀ r ∈ rs, ∃ ds, ds + r.dataSize ≤ buf.length ∧ r.data.length = r.dataSize) ∧
    (∀ (buf : List Nat) (off fuel : Nat),
      off + 6 < buf.length →
      asciiSlice buf off (off + 4) = sig8BIM →
      off + 7 + paddedNameLength (byteAt buf (off + 6)) + 4 ≤ buf.length →
      buf.length < off + 7 + paddedNameLength (byteAt buf (off + 6)) + 4
        + readUInt32BE buf (off + 7 + paddedNameLength (byteAt buf (off + 6))) →
      walkStep buf off = .stop ∧ walkLoop buf (fuel + 1) off = .ok []) := by
  refine ⟨?_, ?_, ?_⟩
  · intro buf off r next h
    obtain ⟨_, _, hdata, hle, _⟩ := walkStep_emit_iff h
    exact ⟨off + 7 + paddedNameLength (byteAt buf (off + 6)) + 4, hdata, hle⟩
  · intro buf fuel off rs h r hr
    obtain ⟨ds, hle, hlen, _⟩ := walkLoop_mem fuel off rs h r hr
    exact ⟨ds, hle, hlen⟩
  · intro buf off fuel h1 h2 h3 h4
    exact ⟨walkStep_stop_of_overrun h1 h2 h3 h4, walkLoop_stop_of_overrun fuel h1 h2 h3 h4⟩

/-- A 24-byte block: one valid empty resource (ID 1003) followed by a
resource whose declared `dataSize` (256) overruns the buffer. -/
def w1block : List Nat := [56, 66, 73, 77, 3, 235, 0, 0, 0, 0, 0, 0]
  ++ [56, 66, 73, 77, 0, 5, 0, 0, 0, 0, 1, 0]

/-- The resource the walker emits from `w1block`. -/
def w1res : Resource := ⟨1003, [], [], 0⟩

theorem walker_never_overruns_witness :
    (∃ ds, w1res.data = sliceBytes w1block ds (ds + w1res.dataSize) ∧
      ds + w1res.dataSize ≤ w1block.length) ∧
    (∃ ds, ds + w1res.dataSize ≤ w1block.length ∧ w1res.data.length = w1res.dataSize) ∧
    (walkStep w1block 12 = .stop ∧ walkLoop w1block 1 12 = .ok []) ∧
    parse8BIMResources w1block = .ok [w1res] := by
  refine ⟨?_, ?_, ?_, by rfl⟩
  · exact walker_never_overruns.1 w1block 0 w1res 12 (by decide)
  · exact walker_never_overruns.2.1 w1block 25 0 [w1res] (by rfl) w1res (by decide)
  · exact walker_never_overruns.2.2 w1block 12 0 (by decide) (by decide) (by decide) (by decide)

/-- Claim C8: the resource walk terminates because every emitted step
advances the cursor past the fixed 11-byte resource header (in fact by at
least 12 bytes); every other step stops the loop. -/
theorem walker_cursor_advances :
    ∀ (buf : List Nat) (off : Nat) (r : Resource) (next : Nat),
      walkStep buf off = .emit r next → off + 11 ≤ next := by
  intro buf off r next h
  obtain ⟨_, _, _, _, hnext⟩ := walkStep_emit_iff h
  have := paddedNameLength_odd (byteAt buf (off + 6))
  omega

theorem walker_cursor_advances_witness : 0 + 11 ≤ 12 :=
  walker_cursor_advances w1block 0 w1res 12 (by decide)

/-- Claim C5: the name field (1 length byte plus padded name bytes)
consumes the even total `1 + paddedNameLength nameLength` bytes: 6 bytes
for `nameLength = 4`, 2 bytes for `nameLength = 0`; and every emitted
resource reads its 32-bit big-endian `dataSize` immediately after the
padded name field, at `offset + 7 + paddedNameLength`. -/
theorem resource_name_padding :
    (∀ nameLength, (1 + paddedNameLength nameLength) % 2 = 0) ∧
    1 + paddedNameLength 4 = 6 ∧
    1 + paddedNameLength 0 = 2 ∧
    (∀ (buf : List Nat) (off : Nat) (r : Resource) (next : Nat),
      walkStep buf off = .emit r next →
        r.dataSize = readUInt32BE buf (off + 7 + paddedNameLength (byteAt buf (off + 6)))) := by
  refine ⟨?_, by decide, by decide, ?_⟩
  · intro n
    have := paddedNameLength_odd n
    omega
  · intro buf off r next h
    exact (walkStep_emit_iff h).2.1

theorem resource_name_padding_witness :
    (1 + paddedNameLength 7) % 2 = 0 ∧
    w1res.dataSize = readUInt32BE w1block (0 + 7 + paddedNameLength (byteAt w1block 6)) :=
  ⟨resource_name_padding.1 7,
   resource_name_padding.2.2.2 w1block 0 w1res 12 (by decide)⟩

theorem parseLayers_length_le (buf : List Nat) :
    ∀ n off i, (parseLayers buf off i n).length ≤ n := by
  intro n
  induction n with
  | zero => intro off i; simp [parseLayers]
  | succ m ih =>
    intro off i
    rw [parseLayers]
    rcases h : parseOneLayer buf off i with _ | ⟨l, next⟩
    · simp
    · simpa using ih next (i + 1)

theorem parseLayers_length_fit (buf : List Nat) :
    ∀ n off i, recordsFit buf off i n → (parseLayers buf off i n).length = n := by
  intro n
  induction n with
  | zero => intro off i _; simp [parseLayers]
  | succ m ih =>
    intro off i hfit
    obtain ⟨l, next, hone, hrest⟩ := hfit
    rw [parseLayers, hone]
    simpa using ih next (i + 1) hrest

theorem skipChannels_overrun {len : Nat} :
    ∀ n start, (∃ c, c < n ∧ len < start + 6 * c + 6) → len < skipChannels len start n + 6 := by
  intro n
  induction n with
  | zero =>
    intro start h
    obtain ⟨c, hc, _⟩ := h
    omega
  | succ m ih =>
    intro start h
    obtain ⟨c, hc, hlen⟩ := h
    rw [skipChannels]
    by_cases h6 : len < start + 6
    · rw [if_pos h6]; omega
    · rw [if_neg h6]
      rcases c with _ | c'
      · omega
      · exact ih (start + 6) ⟨c', by omega, by omega⟩

/-- Claim C2: the layer count is read as a signed big-endian 16-bit
integer and the parser emits exactly `abs(layerCount)` records, in file
order, when the buffer carries enough bytes for them (`recordsFit`); it
never emits more, and it never raises an error past the 10-byte header.
Concretely: a buffer declaring 3 layers but holding bytes for only 2 full
records yields exactly 2 records; a buffer whose raw count bytes are
`0xFFFF` (signed -1) yields 1 record even though 2 full records follow. -/
theorem layer_count_signed_truncation :
    (∀ buf : List Nat, 10 ≤ buf.length → readUInt32BE buf 4 ≠ 0 →
      parseLayerAndMaskInfo buf = .ok (parseLayers buf 10 0 (readInt16BE buf 8).natAbs) ∧
      (parseLayers buf 10 0 (readInt16BE buf 8).natAbs).length ≤ (readInt16BE buf 8).natAbs ∧
      (recordsFit buf 10 0 (readInt16BE buf 8).natAbs →
        (parseLayers buf 10 0 (readInt16BE buf 8).natAbs).length
          = (readInt16BE buf 8).natAbs)) ∧
    (readInt16BE c2buf 8 = 3 ∧
      parseLayerAndMaskInfo c2buf = .ok [c2layerA, c2layerB]) ∧
    (readInt16BE c2negbuf 8 = -1 ∧
      parseLayerAndMaskInfo c2negbuf = .ok [c2layerA]) := by
  refine ⟨?_, ⟨by decide, by rfl⟩, ⟨by decide, by rfl⟩⟩
  intro buf hlen hnz
  have h8 : ¬ buf.length < 8 := by omega
  have h10 : ¬ buf.length < 10 := by omega
  refine ⟨?_, parseLayers_length_le buf _ 10 0, parseLayers_length_fit buf _ 10 0⟩
  rw [parseLayerAndMaskInfo, if_neg h8, if_neg hnz, if_neg h10]

theorem layer_count_signed_truncation_witness :
    parseLayerAndMaskInfo c2buf = .ok (parseLayers c2buf 10 0 (readInt16BE c2buf 8).natAbs) ∧
    (parseLayers c2buf 10 0 (readInt16BE c2buf 8).natAbs).length
      ≤ (readInt16BE c2buf 8).natAbs := by
  obtain ⟨h1, h2, _⟩ := layer_count_signed_truncation.1 c2buf (by decide) (by decide)
  exact ⟨h1, h2⟩

/-- Claim C4: when bytes run out mid-channel-table (some channel entry
before `channelCount` has fewer than 6 bytes left), the per-layer parse is
aborted — `parseOneLayer` yields no record — and the whole record loop
stops there, returning only the records completed earlier. -/
theorem channel_table_truncation_aborts :
    ∀ (buf : List Nat) (off i n : Nat),
      off + 18 ≤ buf.length →
      (∃ c, c < readUInt16BE buf (off + 16) ∧ buf.length < off + 18 + 6 * c + 6) →
      parseOneLayer buf off i = none ∧ parseLayers buf off i (n + 1) = [] := by
  intro buf off i n hbound hex
  have hskip := skipChannels_overrun (readUInt16BE buf (off + 16)) (off + 18) hex
  have g1 : ¬ buf.length < off + 16 := by omega
  have g2 : ¬ buf.length < off + 16 + 2 := by omega
  have hone : parseOneLayer buf off i = none := by
    rw [parseOneLayer, if_neg g1, if_neg g2, if_pos (by omega)]
  refine ⟨hone, ?_⟩
  rw [parseLayers, hone]

/-- A 20-byte buffer whose channel count (1) has no room for its 6-byte
channel entry. -/
def c4buf : List Nat := List.replicate 16 0 ++ [0, 1] ++ [0, 0]

theorem channel_table_truncation_aborts_witness :
    parseOneLayer c4buf 0 0 = none ∧ parseLayers c4buf 0 0 1 = [] :=
  channel_table_truncation_aborts c4buf 0 0 0 (by decide) ⟨0, by decide, by decide⟩

/-- Claim C9: a buffer of total length exactly 8 or 9 whose second 32-bit
field (`layerInfoLength`) is nonzero makes `parseLayerAndMaskInfo` throw
"Buffer too small for layer count" — there is no room for the 16-bit layer
count — rather than return an empty or partial layer sequence. -/
theorem tiny_buffer_nonzero_info_errors :
    ∀ buf : List Nat, (buf.length = 8 ∨ buf.length = 9) → readUInt32BE buf 4 ≠ 0 →
      parseLayerAndMaskInfo buf = .error "Buffer too small for layer count" := by
  intro buf hlen hnz
  have h8 : ¬ buf.length < 8 := by omega
  have h10 : buf.length < 10 := by omega
  rw [parseLayerAndMaskInfo, if_neg h8, if_neg hnz, if_pos h10]

theorem tiny_buffer_nonzero_info_errors_witness :
    parseLayerAndMaskInfo [0, 0, 0, 0, 0, 0, 0, 1]
      = .error "Buffer too small for layer count" :=
  tiny_buffer_nonzero_info_errors [0, 0, 0, 0, 0, 0, 0, 1] (Or.inl (by decide)) (by decide)

/-- Claim C6: a 12-byte sub-block header carrying key "luni" makes the
name search decode a big-endian uint32 character count followed by that
many 16-bit little-endian code units and stop scanning (the result no
longer depends on any later sub-block); a header carrying key "lnam" makes
it decode a Pascal string (1 length byte + that many ASCII bytes) and
likewise stop. -/
theorem layer_name_subblocks :
    (∀ (buf : List Nat) (xEnd loc : Nat) (dflt : LayerName) (fuel : Nat),
      loc + 12 < xEnd →
      loc + 12 ≤ buf.length →
      asciiSlice buf loc (loc + 4) = sig8BIM →
      asciiSlice buf (loc + 4) (loc + 8) = keyLuni →
      loc + 16 ≤ buf.length →
      loc + 16 + readUInt32BE buf (loc + 12) * 2 ≤ buf.length →
      findName buf xEnd dflt (fuel + 1) loc =
        .unicode (utf16leUnits
          (sliceBytes buf (loc + 16) (loc + 16 + readUInt32BE buf (loc + 12) * 2)))) ∧
    (∀ (buf : List Nat) (xEnd loc : Nat) (dflt : LayerName) (fuel : Nat),
      loc + 12 < xEnd →
      loc + 12 < buf.length →
      asciiSlice buf loc (loc + 4) = sig8BIM →
      asciiSlice buf (loc + 4) (loc + 8) = keyLnam →
      loc + 13 + byteAt buf (loc + 12) ≤ buf.length →
      findName buf xEnd dflt (fuel + 1) loc =
        .pascal (asciiSlice buf (loc + 13) (loc + 13 + byteAt buf (loc + 12)))) := by
  constructor
  · intro buf xEnd loc dflt fuel h1 h2 hsig hkey h3 h4
    rw [findName, if_pos h1, if_neg (by omega : ¬ buf.length < loc + 12),
      if_neg (fun hne => hne hsig), if_pos ⟨hkey, h3⟩, if_pos h4]
  · intro buf xEnd loc dflt fuel h1 h2 hsig hkey h4
    have hnl : ¬ (asciiSlice buf (loc + 4) (loc + 8) = keyLuni ∧ loc + 16 ≤ buf.length) := by
      rw [hkey]
      exact fun hc => absurd hc.1 (by decide)
    rw [findName, if_pos h1, if_neg (by omega : ¬ buf.length < loc + 12),
      if_neg (fun hne => hne hsig), if_neg hnl, if_pos ⟨hkey, h2⟩, if_pos h4]

/-- A trailer holding one `luni` sub-block: count 2, UTF-16LE "AB". -/
def c6luni : List Nat := [56, 66, 73, 77] ++ [108, 117, 110, 105] ++ [0, 0, 0, 4]
  ++ [0, 0, 0, 2] ++ [65, 0, 66, 0]

/-- A trailer holding one `lnam` sub-block: Pascal length 1, "H". -/
def c6lnam : List Nat := [56, 66, 73, 77] ++ [108, 110, 97, 109] ++ [0, 0, 0, 2] ++ [1, 72]

theorem layer_name_subblocks_witness :
    findName c6luni 20 (.default 1) 21 0 =
      .unicode (utf16leUnits (sliceBytes c6luni (0 + 16)
        (0 + 16 + readUInt32BE c6luni (0 + 12) * 2))) ∧
    findName c6lnam 20 (.default 1) 21 0 =
      .pascal (asciiSlice c6lnam (0 + 13) (0 + 13 + byteAt c6lnam (0 + 12))) :=
  ⟨layer_name_subblocks.1 c6luni 20 0 (.default 1) 20 (by decide) (by decide) (by decide)
     (by decide) (by decide) (by decide),
   layer_name_subblocks.2 c6lnam 20 0 (.default 1) 20 (by decide) (by decide) (by decide)
     (by decide) (by decide)⟩

theorem yieldsNoLayers_ok {buf : List Nat} {ls : List Layer}
    (hy : yieldsNoLayers buf = true) (hp : parseLayerAndMaskInfo buf = .ok ls) :
    ls = [] := by
  unfold yieldsNoLayers at hy
  rw [hp] at hy
  simpa using hy

theorem trySkips_none {data : List Nat} :
    ∀ l : List Nat, (∀ sk ∈ l, yieldsNoLayers (data.drop sk) = true) →
      trySkips data l = none := by
  intro l
  induction l with
  | nil => intro _; rfl
  | cons sk rest ih =>
    intro hall
    rw [trySkips]
    have hrest := ih (fun s hs => hall s (List.mem_cons_of_mem sk hs))
    by_cases hg : sk + 8 < data.length
    · rw [if_pos hg]
      rcases hp : parseLayerAndMaskInfo (data.drop sk) with e | ls
      · exact hrest
      · have : ls = [] := yieldsNoLayers_ok (hall sk (List.mem_cons_self sk rest)) hp
        subst this
        simpa using hrest
    · rw [if_neg hg]
      exact hrest

theorem tryCandidates_none (ifd : IFD) {rs : List Resource}
    (hempty : ∀ r ∈ rs, yieldsNoLayers r.data = true)
    (hskips : ∀ r ∈ rs, ∀ sk ∈ skipSizes, yieldsNoLayers (r.data.drop sk) = true) :
    ∀ cands : List Nat, tryCandidates ifd rs cands = none := by
  intro cands
  induction cands with
  | nil => rfl
  | cons rid rest ih =>
    rw [tryCandidates]
    rcases hfind : rs.find? (fun r => r.id == rid) with _ | r <;> rw [hfind] <;> dsimp only
    · exact ih
    · have hmem : r ∈ rs := List.mem_of_find?_eq_some hfind
      by_cases hsz : 100 < r.dataSize
      · rw [if_pos hsz]
        rcases hp : parseLayerAndMaskInfo r.data with e | ls <;> dsimp only
        · rw [trySkips_none skipSizes (hskips r hmem)]
          dsimp only
          split <;> exact ih
        · have hls : ls = [] := yieldsNoLayers_ok (hempty r hmem) hp
          subst hls
          simpa using ih
      · rw [if_neg hsz]
        exact ih

/-- Claim C7: when the walker output has no resource with ID 1058 and no
fallback candidate parse (direct or at any retry skip offset) yields a
non-empty layer list, `readLayersFromTiff` returns — rather than throws —
a result with an empty layer sequence, `totalLayers = 0`, and a resources
manifest listing the id, name and size of every resource the walker
found. -/
theorem no_layer_resource_manifest :
    ∀ (ifd : IFD) (rest : List IFD) (block : List Nat) (rs : List Resource),
      ifd.t34377 = some block →
      parse8BIMResources block = .ok rs →
      (∀ r ∈ rs, r.id ≠ 1058) →
      (∀ r ∈ rs, yieldsNoLayers r.data = true) →
      (∀ r ∈ rs, ∀ sk ∈ skipSizes, yieldsNoLayers (r.data.drop sk) = true) →
      readLayersFromTiff (ifd :: rest) = .ok (mkTiffLayerData ifd [] rs) ∧
      (mkTiffLayerData ifd [] rs).layers = [] ∧
      (mkTiffLayerData ifd [] rs).totalLayers = 0 ∧
      (mkTiffLayerData ifd [] rs).resources
        = rs.map (fun r => ⟨r.id, r.name, r.dataSize⟩) := by
  intro ifd rest block rs ht hparse hid hempty hskips
  have hfind : rs.find? (fun r => r.id == 1058) = none := by
    rw [List.find?_eq_none]
    intro r hr
    simpa using hid r hr
  have hcand := tryCandidates_none ifd hempty hskips altIds
  refine ⟨?_, rfl, rfl, rfl⟩
  rw [readLayersFromTiff, ht]
  dsimp only
  rw [hparse]
  dsimp only
  rw [hfind]
  dsimp only
  rw [hcand]

/-- A block holding a single empty resource with ID 1003. -/
def w7block : List Nat := [56, 66, 73, 77, 3, 235, 0, 0, 0, 0, 0, 0]

/-- The resource parsed from `w7block`. -/
def w7res : Resource := ⟨1003, [], [], 0⟩

/-- The IFD wrapping `w7block`. -/
def w7ifd : IFD := ⟨none, none, some w7block, .undef, .undef⟩

/-- A 102-byte resource payload whose direct parse yields zero records
(`layerInfoLength` at bytes 4-7 is 0) but whose slice at skip offset 4
parses to one full layer record. -/
def c3data : List Nat :=
  [0, 0, 0, 0, 0, 0, 0, 0, 0, 0, 0, 1, 0, 1] ++ recordBytes ++ List.replicate 54 0

/-- An 8BIM block holding `c3data` as resource 1036. -/
def c3block : List Nat := [56, 66, 73, 77, 4, 12, 0, 0] ++ [0, 0, 0, 102] ++ c3data

/-- The resource the walker extracts from `c3block`. -/
def c3res : Resource := ⟨1036, [], c3data, 102⟩

/-- The IFD wrapping `c3block` (no resource 1058, so the fallback runs). -/
def c3ifd : IFD := ⟨none, none, some c3block, .undef, .undef⟩

/-- Claim C3 counterexample: the direct parse of the resource-1036
candidate yields zero records without throwing; skip offset 4 is in the
claimed retry list and leaves more than 8 bytes, and parsing the buffer
sliced there yields a non-empty layer list; yet `readLayersFromTiff`
returns a result with an empty layer sequence — the retry was not
performed, because it is reached only from the catch block of a thrown
parse error. -/
theorem fallback_zero_records_counterexample :
    parseLayerAndMaskInfo c3res.data = .ok [] ∧
    100 < c3res.dataSize ∧
    (4 ∈ skipSizes ∧ 4 + 8 < c3res.data.length ∧
      parseLayerAndMaskInfo (c3res.data.drop 4) = .ok [c2layerA]) ∧
    readLayersFromTiff [c3ifd] = .ok (mkTiffLayerData c3ifd [] [c3res]) ∧
    (mkTiffLayerData c3ifd [] [c3res]).layers = [] := by
  refine ⟨by rfl, by decide, ⟨by decide, by decide, by rfl⟩, by rfl, rfl⟩

theorem parse_ok_of_ten (buf : List Nat) (h : 10 ≤ buf.length) :
    ∃ ls, parseLayerAndMaskInfo buf = .ok ls := by
  have h8 : ¬ buf.length < 8 := by omega
  have h10 : ¬ buf.length < 10 := by omega
  rw [parseLayerAndMaskInfo, if_neg h8]
  by_cases hz : readUInt32BE buf 4 = 0
  · rw [if_pos hz]
    exact ⟨[], rfl⟩
  · rw [if_neg hz, if_neg h10]
    exact ⟨_, rfl⟩

theorem tryCandidates_eq_noRetry (ifd : IFD) {rs : List Resource}
    (hlen : ∀ r ∈ rs, r.data.length = r.dataSize) :
    ∀ cands : List Nat, tryCandidates ifd rs cands = tryCandidatesNoRetry ifd rs cands := by
  intro cands
  induction cands with
  | nil => rfl
  | cons rid rest ih =>
    rw [tryCandidates, tryCandidatesNoRetry]
    rcases hfind : rs.find? (fun r => r.id == rid) with _ | r <;> rw [hfind] <;> dsimp only
    · exact ih
    · have hmem : r ∈ rs := List.mem_of_find?_eq_some hfind
      by_cases hsz : 100 < r.dataSize
      · rw [if_pos hsz, if_pos hsz]
        obtain ⟨ls, hok⟩ := parse_ok_of_ten r.data (by rw [hlen r hmem]; omega)
        rw [hok]
        dsimp only
        split
        · rfl
        · exact ih
      · rw [if_neg hsz, if_neg hsz]
        exact ih

/-- Claim C3 amended: a zero-record direct attempt does not trigger the
skip retry (the code moves on to the next candidate); the retry branch is
reachable only from a thrown parse error, and since every candidate tried
has `dataSize > 100` — hence a data buffer of at least 10 bytes, on which
the Layer Record Parser always returns (possibly empty) instead of
throwing — the retry branch is unreachable: `readLayersFromTiff` is
extensionally identical to the same code with the retry removed. -/
theorem fallback_retry_unreachable :
    (∀ buf : List Nat, 10 ≤ buf.length → ∃ ls, parseLayerAndMaskInfo buf = .ok ls) ∧
    (∀ ifds : List IFD, readLayersFromTiff ifds = readLayersFromTiffNoRetry ifds) := by
  refine ⟨parse_ok_of_ten, ?_⟩
  intro ifds
  rcases ifds with _ | ⟨ifd, rest⟩
  · rfl
  rw [readLayersFromTiff, readLayersFromTiffNoRetry]
  rcases ht : ifd.t34377 with _ | block <;> dsimp only
  rcases hparse : parse8BIMResources block with e | rs <;> dsimp only
  have hlen : ∀ r ∈ rs, r.data.length = r.dataSize := by
    intro r hr
    obtain ⟨_, _, hl, _⟩ := walkLoop_mem (block.length + 1) 0 rs hparse r hr
    exact hl
  rw [tryCandidates_eq_noRetry ifd hlen altIds]

theorem fallback_retry_unreachable_witness :
    (10 ≤ c3data.length ∧ ∃ ls, parseLayerAndMaskInfo c3data = .ok ls) ∧
    readLayersFromTiff [c3ifd] = readLayersFromTiffNoRetry [c3ifd] :=
  ⟨⟨by decide, fallback_retry_unreachable.1 c3data (by decide)⟩,
   fallback_retry_unreachable.2 [c3ifd]⟩

theorem tryCandidates_shape {ifd : IFD} {rs : List Resource} :
    ∀ (cands : List Nat) (d : TiffLayerData), tryCandidates ifd rs cands = some d →
      ∃ ls, d = mkTiffLayerData ifd ls rs := by
  intro cands
  induction cands with
  | nil => intro d h; cases h
  | cons rid rest ih =>
    intro d h
    rw [tryCandidates] at h
    split at h
    · split at h
      · split at h
        · split at h
          · cases h
            exact ⟨_, rfl⟩
          · exact ih d h
        · split at h
          · split at h
            · cases h
              exact ⟨_, rfl⟩
            · exact ih d h
          · exact ih d h
      · exact ih d h
    · exact ih d h

theorem readLayers_ok_shape {ifd : IFD} {rest : List IFD} {d : TiffLayerData}
    (h : readLayersFromTiff (ifd :: rest) = .ok d) :
    ∃ ls rs, d = mkTiffLayerData ifd ls rs := by
  rw [readLayersFromTiff] at h
  split at h
  · cases h
  · split at h
    · cases h
    · split at h
      · split at h
        · cases h
          exact ⟨_, _, rfl⟩
        · cases h
      · split at h
        · cases h
          rename_i hcand
          obtain ⟨ls, hls⟩ := tryCandidates_shape altIds _ hcand
          exact ⟨ls, _, hls⟩
        · cases h
          exact ⟨[], _, rfl⟩

/-- Claim C10: every `TiffLayerData` returned by `readLayersFromTiff`
takes `channels` from the first element of tag 277 exactly when that tag
holds an array and the constant 3 otherwise (a scalar is ignored), and
`bitsPerChannel` from the first element of tag 258 when it is an array and
the constant 8 otherwise. -/
theorem channels_bits_defaults :
    ∀ (ifd : IFD) (rest : List IFD) (d : TiffLayerData),
      readLayersFromTiff (ifd :: rest) = .ok d →
      d.channels = (match ifd.t277 with
        | .undef => some 3
        | .scalar _ => some 3
        | .array vs => vs.head?) ∧
      d.bitsPerChannel = (match ifd.t258 with
        | .undef => some 8
        | .scalar _ => some 8
        | .array vs => vs.head?) := by
  intro ifd rest d h
  obtain ⟨ls, rs, hd⟩ := readLayers_ok_shape h
  subst hd
  constructor
  · cases htag : ifd.t277 <;> simp [mkTiffLayerData, tagFirstOr, htag]
  · cases htag : ifd.t258 <;> simp [mkTiffLayerData, tagFirstOr, htag]

/-- An IFD whose tag 277 is the scalar 5 (ignored, defaulting to 3) and
whose tag 258 is the array [16] (first element taken). -/
def w10ifd : IFD := ⟨none, none, some [], .scalar 5, .array [16]⟩

theorem channels_bits_defaults_witness :
    (mkTiffLayerData w10ifd [] []).channels = (match w10ifd.t277 with
      | .undef => some 3
      | .scalar _ => some 3
      | .array vs => vs.head?) ∧
    (mkTiffLayerData w10ifd [] []).bitsPerChannel = (match w10ifd.t258 with
      | .undef => some 8
      | .scalar _ => some 8
      | .array vs => vs.head?) :=
  channels_bits_defaults w10ifd [] (mkTiffLayerData w10ifd [] []) (by rfl)

theorem no_layer_resource_manifest_witness :
    readLayersFromTiff [w7ifd] = .ok (mkTiffLayerData w7ifd [] [w7res]) ∧
    (mkTiffLayerData w7ifd [] [w7res]).layers = [] ∧
    (mkTiffLayerData w7ifd [] [w7res]).totalLayers = 0 ∧
    (mkTiffLayerData w7ifd [] [w7res]).resources
      = [w7res].map (fun r => ⟨r.id, r.name, r.dataSize⟩) := by
  refine no_layer_resource_manifest w7ifd [] w7block [w7res] (by rfl) (by rfl)
    (by decide) ?_ ?_
  · intro r hr
    rcases List.mem_singleton.mp hr with h
    subst h
    rfl
  · intro r hr sk hsk
    rcases List.mem_singleton.mp hr with h
    subst h
    have hdrop : (w7res.data).drop sk = [] := List.drop_nil
    rw [hdrop]
    rfl

end Nebula
